import Mathlib

/-!
Shallow embedding of the call-site matching and bytecode rewriting engine of
src/src/Datadog.Trace.ClrProfiler.Native/cor_profiler.cpp.

The embedding models:
  * the rule data model (method references, method replacements, integrations),
  * CorProfiler::ModuleLoadFinished (filtering the rule catalog by assembly
    name and pre-materializing wrapper references, lines 82-172),
  * CorProfiler::JITCompilationStarted (the per-compilation rewrite loop,
    the per-instruction call-site resolution with its goto chain, and the
    commit decision, lines 186-351).

Host metadata reads (IMetaDataImport) are modelled as oracles returning
Option values; a none result stands for a failed HRESULT, which the source
turns into an early return of S_OK via the RETURN_OK_IF_FAILED macro.
The MetadataBuilder emission calls of ModuleLoadFinished (declared in
metadata_builder.h, outside the provided source) are likewise modelled as
an oracle of deterministic per-replacement successes and failures.
-/

/-- Identity of a method as the rules name it: an assembly name, a declaring
type name and a method name.  Mirrors the assembly.name, type_name and
method_name fields used on caller_method, target_method and wrapper_method
in cor_profiler.cpp. -/
structure MethodRef where
  assembly_name : String
  type_name : String
  method_name : String
deriving DecidableEq, Repr, Inhabited

/-- One method replacement rule: a caller pattern, a target pattern and the
wrapper method to redirect matching call sites to. -/
structure MethodReplacement where
  caller_method : MethodRef
  target_method : MethodRef
  wrapper_method : MethodRef
deriving DecidableEq, Repr, Inhabited

/-- An integration: a list of method replacement rules. -/
structure Integration where
  method_replacements : List MethodReplacement
deriving DecidableEq, Repr, Inhabited

/-- Identity of the compiling method as returned by GetFunctionInfo:
the declaring type name (caller.type.name) and the method name (caller.name). -/
structure FunctionInfo where
  typeName : String
  methodName : String
deriving DecidableEq, Repr, Inhabited

/-- One intermediate-language instruction of a method body.  The source walks
ILRewriter's doubly linked ILInstr list; the embedding models the stream as a
list in stream order.  Fields opcode and arg32 mirror m_opcode and m_Arg32;
payload stands for every remaining per-instruction field (offsets, the wide
operand), which the rewriter never touches. -/
structure Instr where
  opcode : Nat
  arg32 : Nat
  payload : Nat
deriving DecidableEq, Repr, Inhabited

/-- Opcode constant CEE_CALL (0x28). -/
def CEE_CALL : Nat := 0x28

/-- Opcode constant CEE_CALLVIRT (0x6F). -/
def CEE_CALLVIRT : Nat := 0x6F

/-- Token-kind constant mdtTypeRef (0x01000000). -/
def mdtTypeRef : Nat := 0x01000000

/-- Token-kind constant mdtTypeDef (0x02000000). -/
def mdtTypeDef : Nat := 0x02000000

/-- Token-kind constant mdtMethodDef (0x06000000). -/
def mdtMethodDef : Nat := 0x06000000

/-- Token-kind constant mdtMemberRef (0x0A000000). -/
def mdtMemberRef : Nat := 0x0A000000

/-- TypeFromToken of CorHdr.h: the top byte of a 32-bit metadata token,
written on Nat as truncation to 32 bits followed by clearing the low 24. -/
def TypeFromToken (tk : Nat) : Nat := tk % 4294967296 / 16777216 * 16777216

/-- The success HRESULT S_OK. -/
def S_OK : Nat := 0

/-- Read interface of the module's metadata, as the rewrite scan uses it.
Each field models one IMetaDataImport call; a none result models a failed
HRESULT.  Per the error model there are no transient failures, so an oracle
function fully determines each call's outcome:
  * memberRefProps: GetMemberRefProps, returning the parent token and the
    member name;
  * typeRefProps: GetTypeRefProps, returning the type name;
  * methodProps: GetMethodProps, returning the declaring type-def token and
    the method name;
  * typeDefProps: GetTypeDefProps, returning the type name. -/
structure MetadataImport where
  memberRefProps : Nat → Option (Nat × String)
  typeRefProps : Nat → Option String
  methodProps : Nat → Option (Nat × String)
  typeDefProps : Nat → Option String

/-- Record of one host metadata call performed while resolving a call
instruction; used to observe which lookups a resolution performed. -/
inductive HostCall where
  | memberRefProps (tk : Nat)
  | typeRefProps (tk : Nat)
  | methodProps (tk : Nat)
  | typeDefProps (tk : Nat)
deriving DecidableEq, Repr

/-- Whether a host call is a type-name resolution (GetTypeRefProps or
GetTypeDefProps). -/
def HostCall.isTypeNameLookup : HostCall → Bool
  | .typeRefProps _ => true
  | .typeDefProps _ => true
  | _ => false

/-- Outcome of processing one instruction during a rewrite scan:
  * hostFail: a metadata read failed, the handler returns S_OK at once;
  * keep: the instruction is left as it is;
  * rewrite: the instruction is mutated into a call to the wrapper. -/
inductive StepResult where
  | hostFail
  | keep
  | rewrite
deriving DecidableEq, Repr

/-- Label compare_type_and_method_names of JITCompilationStarted: the final
comparison of the resolved type name and method name against the
replacement's target. -/
def compareTypeAndMethodNames (target : MethodRef)
    (target_type_name target_method_name : String) : StepResult :=
  if target.type_name = target_type_name ∧ target.method_name = target_method_name then
    .rewrite
  else
    .keep

/-- Label use_type_def of JITCompilationStarted: read the type name from an
mdTypeDef token via GetTypeDefProps, then fall through to the final
comparison. -/
def useTypeDef (md : MetadataImport) (target : MethodRef) (target_type_def : Nat)
    (target_method_name : String) (calls : List HostCall) : StepResult × List HostCall :=
  match md.typeDefProps target_type_def with
  | none => (.hostFail, calls ++ [.typeDefProps target_type_def])
  | some target_type_name =>
      (compareTypeAndMethodNames target target_type_name target_method_name,
       calls ++ [.typeDefProps target_type_def])

/-- Label use_method_def of JITCompilationStarted: read the method name and
declaring type-def token from an mdMethodDef via GetMethodProps, reject on a
method-name mismatch, else fall through to use_type_def. -/
def useMethodDef (md : MetadataImport) (target : MethodRef) (target_method_def : Nat)
    (calls : List HostCall) : StepResult × List HostCall :=
  match md.methodProps target_method_def with
  | none => (.hostFail, calls ++ [.methodProps target_method_def])
  | some (target_type_def, target_method_name) =>
      if target.method_name = target_method_name then
        useTypeDef md target target_type_def target_method_name
          (calls ++ [.methodProps target_method_def])
      else
        (.keep, calls ++ [.methodProps target_method_def])

/-- Per-instruction body of the scan loop of JITCompilationStarted
(lines 245-339), with the goto chain flattened into calls of the labelled
helpers.  Besides the step outcome it returns the list of host metadata
calls performed, in order, to make the short-circuit behaviour observable.
  * Instructions that are not CALL/CALLVIRT on a member-ref or method-def
    operand are skipped without any host call.
  * For a member-ref operand, GetMemberRefProps yields the member name; on a
    name mismatch the instruction is skipped immediately.  Otherwise the
    parent token is classified as type-ref, type-def or method-def; any other
    parent kind skips the instruction.
  * For a method-def operand the method-def path is taken directly. -/
def processInstr (md : MetadataImport) (target : MethodRef) (instr : Instr) :
    StepResult × List HostCall :=
  if (instr.opcode = CEE_CALL ∨ instr.opcode = CEE_CALLVIRT) ∧
     (TypeFromToken instr.arg32 = mdtMemberRef ∨ TypeFromToken instr.arg32 = mdtMethodDef) then
    if TypeFromToken instr.arg32 = mdtMemberRef then
      match md.memberRefProps instr.arg32 with
      | none => (.hostFail, [.memberRefProps instr.arg32])
      | some (token, target_method_name) =>
          if target.method_name = target_method_name then
            if TypeFromToken token = mdtTypeRef then
              match md.typeRefProps token with
              | none => (.hostFail, [.memberRefProps instr.arg32, .typeRefProps token])
              | some target_type_name =>
                  (compareTypeAndMethodNames target target_type_name target_method_name,
                   [.memberRefProps instr.arg32, .typeRefProps token])
            else if TypeFromToken token = mdtTypeDef then
              useTypeDef md target token target_method_name [.memberRefProps instr.arg32]
            else if TypeFromToken token = mdtMethodDef then
              useMethodDef md target token [.memberRefProps instr.arg32]
            else
              (.keep, [.memberRefProps instr.arg32])
          else
            (.keep, [.memberRefProps instr.arg32])
    else
      useMethodDef md target instr.arg32 []
  else
    (.keep, [])

/-- Step outcome of one instruction, without the call trace. -/
def stepOf (md : MetadataImport) (target : MethodRef) (instr : Instr) : StepResult :=
  (processInstr md target instr).1

/-- Effect of one scan pass on one instruction: a rewrite changes the opcode
to CEE_CALL and the operand to the wrapper reference, anything else leaves
the instruction alone. -/
def rewriteInstr (md : MetadataImport) (target : MethodRef) (wrapper_method_ref : Nat)
    (instr : Instr) : Instr :=
  if stepOf md target instr = .rewrite then
    { instr with opcode := CEE_CALL, arg32 := wrapper_method_ref }
  else
    instr

/-- The scan of one rewrite pass over the whole method body for one
replacement (the for loop over ILInstr at lines 245-340): walks the stream
in order, mutates each matching call site in place, records in the Bool
whether at least one instruction was mutated, and aborts with none as soon
as any host metadata read fails (RETURN_OK_IF_FAILED). -/
def scanBody (md : MetadataImport) (target : MethodRef) (wrapper_method_ref : Nat) :
    List Instr → Option (List Instr × Bool)
  | [] => some ([], false)
  | instr :: rest =>
    match stepOf md target instr with
    | .hostFail => none
    | .keep =>
      match scanBody md target wrapper_method_ref rest with
      | none => none
      | some (tl, modified) => some (instr :: tl, modified)
    | .rewrite =>
      match scanBody md target wrapper_method_ref rest with
      | none => none
      | some (tl, _) =>
          some ({ instr with opcode := CEE_CALL, arg32 := wrapper_method_ref } :: tl, true)

/-- Module record stored in the registry (the ModuleMetadata object built by
ModuleLoadFinished): the module's assembly name, the enabled integrations,
and the cache from a wrapper method's cache key to the emitted member
reference handle. -/
structure ModuleRecord where
  assembly_name : String
  integrations : List Integration
  wrapper_refs : List (MethodRef × Nat)
deriving DecidableEq, Repr, Inhabited

/-- The replacements a module record enables, in the order the nested loops
of JITCompilationStarted visit them (integrations in list order, each
integration's replacements in list order). -/
def enabledReplacements (record : ModuleRecord) : List MethodReplacement :=
  record.integrations.flatMap (fun integration => integration.method_replacements)

/-- Caller guard of JITCompilationStarted (lines 218-222): the replacement's
caller type name and method name each either empty or equal to the compiling
method's.  The caller assembly name is not consulted here. -/
def callerMatches (mr : MethodReplacement) (caller : FunctionInfo) : Bool :=
  (mr.caller_method.type_name = "" || mr.caller_method.type_name = caller.typeName) &&
  (mr.caller_method.method_name = "" || mr.caller_method.method_name = caller.methodName)

/-- Inputs of one JITCompilationStarted event, with the host's fallible
calls modelled as oracles fixed for the event:
  * functionInfoOk: whether GetFunctionInfo on the function id succeeds;
  * record: the registry lookup result for the method's module;
  * caller: the compiling method's identity, none when GetFunctionInfo on the
    metadata import fails its validity check;
  * importOk: whether ILRewriter.Import succeeds;
  * body: the method's instruction stream as Import reads it;
  * md: the module's metadata read interface. -/
structure JitEvent where
  functionInfoOk : Bool
  record : Option ModuleRecord
  caller : Option FunctionInfo
  importOk : Bool
  body : List Instr
  md : MetadataImport

/-- Observable outcome of one JITCompilationStarted event:
  * hresult: the HRESULT returned to the host;
  * commits: the bodies passed to ILRewriter.Export, in order (the committed
    instruction-stream mutations);
  * attempted: the replacements for which a rewrite pass was entered (the
    caller guard held), in order. -/
structure JitResult where
  hresult : Nat
  commits : List (List Instr)
  attempted : List MethodReplacement
deriving DecidableEq, Repr

/-- The replacement loop of JITCompilationStarted (lines 213-348) over the
enabled replacements in catalog order.  For a caller-matching replacement:
a missing cached wrapper reference returns S_OK for the whole event; a
failing Import returns S_OK; a scan aborted by a failed metadata read
returns S_OK without committing; a scan that mutated at least one
instruction commits the mutated stream (Export) and returns S_OK; a scan
with no mutation falls through to the next replacement. -/
def replLoop (ev : JitEvent) (record : ModuleRecord) (caller : FunctionInfo) :
    List MethodReplacement → JitResult
  | [] => ⟨S_OK, [], []⟩
  | mr :: rest =>
    if callerMatches mr caller then
      match record.wrapper_refs.lookup mr.wrapper_method with
      | none => ⟨S_OK, [], [mr]⟩
      | some wrapper_method_ref =>
        if ev.importOk then
          match scanBody ev.md mr.target_method wrapper_method_ref ev.body with
          | none => ⟨S_OK, [], [mr]⟩
          | some (newBody, modified) =>
            if modified then
              ⟨S_OK, [newBody], [mr]⟩
            else
              let r := replLoop ev record caller rest
              ⟨r.hresult, r.commits, mr :: r.attempted⟩
        else
          ⟨S_OK, [], [mr]⟩
    else
      replLoop ev record caller rest

/-- CorProfiler::JITCompilationStarted (lines 186-351): a failed
GetFunctionInfo, an untracked module, or an unresolvable caller identity
leaves the method untouched with S_OK; otherwise the replacement loop runs
over the module record's enabled replacements. -/
def jitCompilationStarted (ev : JitEvent) : JitResult :=
  if ev.functionInfoOk then
    match ev.record with
    | none => ⟨S_OK, [], []⟩
    | some record =>
      match ev.caller with
      | none => ⟨S_OK, [], []⟩
      | some caller => replLoop ev record caller (enabledReplacements record)
  else
    ⟨S_OK, [], []⟩

/-- Emission interface of the MetadataBuilder used by ModuleLoadFinished.
The builder itself (metadata_builder.h) is outside the provided source, so
only its success/failure surface is modelled, deterministically per input:
  * emitAssemblyRef: whether EmitAssemblyRef succeeds for a wrapper assembly;
  * storeWrapperRef: the member-reference handle StoreWrapperMethodRef emits
    for a replacement's wrapper, or none on failure. -/
structure EmitOracle where
  emitAssemblyRef : String → Bool
  storeWrapperRef : MethodReplacement → Option Nat

/-- The emission loop of ModuleLoadFinished (lines 155-167) over the enabled
replacements in order: for each replacement, EmitAssemblyRef for the wrapper
assembly then StoreWrapperMethodRef; the first failure aborts the whole loop
(RETURN_OK_IF_FAILED returns S_OK from ModuleLoadFinished before the module
record is stored). -/
def emitAll (oracle : EmitOracle) : List MethodReplacement → Option (List (MethodRef × Nat))
  | [] => some []
  | mr :: rest =>
    if oracle.emitAssemblyRef mr.wrapper_method.assembly_name then
      match oracle.storeWrapperRef mr with
      | none => none
      | some handle =>
        match emitAll oracle rest with
        | none => none
        | some tl => some ((mr.wrapper_method, handle) :: tl)
    else
      none

/-- Assembly filter condition of ModuleLoadFinished (lines 112-113): the
replacement's caller assembly name is empty or equals the module's. -/
def assemblyMatches (mr : MethodReplacement) (assembly_name : String) : Bool :=
  mr.caller_method.assembly_name = "" || mr.caller_method.assembly_name = assembly_name

/-- Filtering loop of ModuleLoadFinished (lines 105-117): for each
integration of the catalog, for each of its method replacements, if the
replacement's caller assembly name is empty or equals the module's assembly
name, push the whole integration onto the enabled list. -/
def enabledIntegrationsFor (catalog : List Integration) (assembly_name : String) :
    List Integration :=
  catalog.foldl
    (fun enabled integration =>
      integration.method_replacements.foldl
        (fun enabled mr =>
          if assemblyMatches mr assembly_name then
            enabled ++ [integration]
          else
            enabled)
        enabled)
    []

/-- CorProfiler::ModuleLoadFinished (lines 82-172), as its effect on the
module registry: the returned record is the one inserted for the module, or
none when the handler returns without inserting one.  infoOk models the
GetModuleInfo2 call, is_winrt the Windows-Runtime module flag, metadataOk
the GetModuleMetaData and GetModuleFromScope calls.  An empty filtered
integration list skips the module; any emission failure aborts before the
record is stored. -/
def moduleLoadFinished (catalog : List Integration) (oracle : EmitOracle)
    (assembly_name : String) (is_winrt : Bool) (infoOk metadataOk : Bool) :
    Option ModuleRecord :=
  if infoOk then
    if is_winrt then
      none
    else if (enabledIntegrationsFor catalog assembly_name).isEmpty then
      none
    else if metadataOk then
      match emitAll oracle
          ((enabledIntegrationsFor catalog assembly_name).flatMap
            (fun integration => integration.method_replacements)) with
      | none => none
      | some cache => some ⟨assembly_name, enabledIntegrationsFor catalog assembly_name, cache⟩
    else
      none
  else
    none

/-- Concrete metadata-read oracle for the worked examples: token 0x0A000001
is a member reference named Add, token 0x0A000002 one named Sub, and token
0x0A000003 one named Log; the first two have parent type reference
0x01000005 named Sample.Math, the third has parent type reference
0x01000006 named Other.Util. -/
def mdEx : MetadataImport where
  memberRefProps := fun tk =>
    if tk = 0x0A000001 then some (0x01000005, "Add")
    else if tk = 0x0A000002 then some (0x01000005, "Sub")
    else if tk = 0x0A000003 then some (0x01000006, "Log")
    else none
  typeRefProps := fun tk =>
    if tk = 0x01000005 then some "Sample.Math"
    else if tk = 0x01000006 then some "Other.Util"
    else none
  methodProps := fun _ => none
  typeDefProps := fun _ => none

/-- Compiling method identity used in the worked examples: type C, method Foo. -/
def callerEx : FunctionInfo := ⟨"C", "Foo"⟩

/-- Example target pattern Sample.Math::Add. -/
def targetAdd : MethodRef := ⟨"", "Sample.Math", "Add"⟩

/-- Example target pattern Other.Util::Log. -/
def targetLog : MethodRef := ⟨"", "Other.Util", "Log"⟩

/-- Example wrapper method for the Add replacement. -/
def wrapAdd : MethodRef := ⟨"Wrap", "Wrapper.Math", "AddW"⟩

/-- Example wrapper method for the Log replacement. -/
def wrapLog : MethodRef := ⟨"Wrap", "Wrapper.Util", "LogW"⟩

/-- Example replacement redirecting Sample.Math::Add, caller all-wildcard. -/
def mrAdd : MethodReplacement := ⟨⟨"", "", ""⟩, targetAdd, wrapAdd⟩

/-- Example replacement redirecting Other.Util::Log, caller all-wildcard. -/
def mrLog : MethodReplacement := ⟨⟨"", "", ""⟩, targetLog, wrapLog⟩

/-- Example method body: a non-call instruction, a virtual call to
Sample.Math::Add, and a direct call to Other.Util::Log. -/
def bodyEx : List Instr := [⟨0, 0, 0⟩, ⟨CEE_CALLVIRT, 0x0A000001, 1⟩, ⟨CEE_CALL, 0x0A000003, 2⟩]

/-- bodyEx after the Add replacement's pass with wrapper handle 41. -/
def bodyExAdd : List Instr := [⟨0, 0, 0⟩, ⟨CEE_CALL, 41, 1⟩, ⟨CEE_CALL, 0x0A000003, 2⟩]

/-- bodyEx after the Log replacement's pass with wrapper handle 42. -/
def bodyExLog : List Instr := [⟨0, 0, 0⟩, ⟨CEE_CALLVIRT, 0x0A000001, 1⟩, ⟨CEE_CALL, 42, 2⟩]

/-- Example module record enabling both example replacements with both
wrapper references cached. -/
def recEx : ModuleRecord := ⟨"A", [⟨[mrAdd, mrLog]⟩], [(wrapAdd, 41), (wrapLog, 42)]⟩

/-- Example compilation event over recEx and bodyEx with every host call
succeeding. -/
def evEx : JitEvent := ⟨true, some recEx, some callerEx, true, bodyEx, mdEx⟩

/-- Example method body containing three call sites of Sample.Math::Add. -/
def bodyTri : List Instr :=
  [⟨CEE_CALLVIRT, 0x0A000001, 0⟩, ⟨0, 0, 1⟩, ⟨CEE_CALL, 0x0A000001, 2⟩,
   ⟨CEE_CALLVIRT, 0x0A000001, 3⟩]

/-- bodyTri after the Add replacement's pass with wrapper handle 41. -/
def bodyTriRw : List Instr :=
  [⟨CEE_CALL, 41, 0⟩, ⟨0, 0, 1⟩, ⟨CEE_CALL, 41, 2⟩, ⟨CEE_CALL, 41, 3⟩]

/-- Module record for the C4 counterexample: both replacements enabled but
only the Log wrapper reference cached. -/
def recC4 : ModuleRecord := ⟨"A", [⟨[mrAdd, mrLog]⟩], [(wrapLog, 42)]⟩

/-- Compilation event for the C4 counterexample. -/
def evC4 : JitEvent := ⟨true, some recC4, some callerEx, true, bodyEx, mdEx⟩

/-- Replacement whose caller assembly is A, with all other caller fields
wildcards. -/
def rAsmA : MethodReplacement := ⟨⟨"A", "", ""⟩, targetAdd, wrapAdd⟩

/-- Replacement whose caller assembly is B, with all other caller fields
wildcards. -/
def rAsmB : MethodReplacement := ⟨⟨"B", "", ""⟩, targetLog, wrapLog⟩

/-- Second replacement with caller assembly A, distinct from rAsmA. -/
def rAsmA2 : MethodReplacement := ⟨⟨"A", "", ""⟩, targetLog, wrapLog⟩

/-- Catalog whose one integration holds one assembly-A and one assembly-B
replacement. -/
def catalogC2 : List Integration := [⟨[rAsmA, rAsmB]⟩]

/-- Catalog whose one integration holds two assembly-A replacements. -/
def catalogC2b : List Integration := [⟨[rAsmA, rAsmA2]⟩]

/-- Emission oracle that always succeeds with handle 1. -/
def oracleC2 : EmitOracle := ⟨fun _ => true, fun _ => some 1⟩

/-- Record moduleLoadFinished stores for catalogC2 and assembly A. -/
def recC2 : ModuleRecord := ⟨"A", [⟨[rAsmA, rAsmB]⟩], [(wrapAdd, 1), (wrapLog, 1)]⟩

/-- Record moduleLoadFinished stores for catalogC2b and assembly A: the one
integration appears twice, once per matching replacement. -/
def recC2b : ModuleRecord :=
  ⟨"A", [⟨[rAsmA, rAsmA2]⟩, ⟨[rAsmA, rAsmA2]⟩],
   [(wrapAdd, 1), (wrapLog, 1), (wrapAdd, 1), (wrapLog, 1)]⟩

/-- Emission oracle that fails StoreWrapperMethodRef exactly on the AddW
wrapper and yields handle 7 otherwise. -/
def oracleC3 : EmitOracle :=
  ⟨fun _ => true, fun mr => if mr.wrapper_method.method_name = "AddW" then none else some 7⟩

/-- Replacement for the C8 counterexample whose caller assembly matches the
module but whose caller method name matches no compiling method. -/
def r8a : MethodReplacement := ⟨⟨"A", "", "NoCaller"⟩, targetAdd, wrapAdd⟩

/-- Replacement for the C8 counterexample whose caller assembly B differs
from the module's assembly A, other caller fields wildcards. -/
def r8b : MethodReplacement := ⟨⟨"B", "", ""⟩, targetLog, wrapLog⟩

/-- Catalog for the C8 counterexample. -/
def catalogC8 : List Integration := [⟨[r8a, r8b]⟩]

/-- Emission oracle for the C8 counterexample: always succeeds, handle 11. -/
def oracleC8 : EmitOracle := ⟨fun _ => true, fun _ => some 11⟩

/-- Record moduleLoadFinished stores for catalogC8 and assembly A: the
integration is pushed once (for r8a), so r8b is enabled as well. -/
def recC8 : ModuleRecord := ⟨"A", [⟨[r8a, r8b]⟩], [(wrapAdd, 11), (wrapLog, 11)]⟩

/-- Compilation event for the C8 counterexample. -/
def evC8 : JitEvent := ⟨true, some recC8, some callerEx, true, bodyEx, mdEx⟩

/-- bodyEx after r8b's pass with wrapper handle 11. -/
def bodyC8 : List Instr := [⟨0, 0, 0⟩, ⟨CEE_CALLVIRT, 0x0A000001, 1⟩, ⟨CEE_CALL, 11, 2⟩]

/-- Characterization of one scan pass: the pass fails exactly when some
instruction's resolution hits a failed host read, and otherwise returns the
pointwise-rewritten stream together with whether any instruction stepped to
a rewrite. -/
theorem scanBody_eq (md : MetadataImport) (target : MethodRef) (w : Nat) :
    ∀ body : List Instr, scanBody md target w body =
      if body.any (fun i => stepOf md target i == StepResult.hostFail) then none
      else some (body.map (rewriteInstr md target w),
        body.any (fun i => stepOf md target i == StepResult.rewrite)) := by
  intro body
  induction body with
  | nil => simp [scanBody]
  | cons i rest ih =>
    cases h : stepOf md target i <;>
      cases hfail : rest.any (fun j => stepOf md target j == StepResult.hostFail) <;>
        simp [scanBody, h, hfail, ih, rewriteInstr]

/-- Pointwise relation between a stream and its rewritten image: rewritten
instructions get the direct-call opcode and the wrapper operand, all others
are untouched. -/
theorem forall₂_rewriteInstr (md : MetadataImport) (target : MethodRef) (w : Nat) :
    ∀ body : List Instr,
      List.Forall₂ (fun old new =>
        (stepOf md target old = StepResult.rewrite →
          new = { old with opcode := CEE_CALL, arg32 := w }) ∧
        (stepOf md target old ≠ StepResult.rewrite → new = old))
        body (body.map (rewriteInstr md target w)) := by
  intro body
  induction body with
  | nil => exact List.Forall₂.nil
  | cons a l ih =>
    refine List.Forall₂.cons ⟨?_, ?_⟩ ih
    · intro hr
      simp [rewriteInstr, hr]
    · intro hr
      simp [rewriteInstr, hr]

/-- C5: in a committed rewrite pass, exactly the instructions whose
resolution steps to a rewrite (the resolved target matches the
replacement's target type name and method name) are changed, each only in
its opcode (which becomes the direct-call opcode CEE_CALL, in particular
turning a virtual call into a direct call) and its operand (which becomes
the cached wrapper reference handle); every other instruction of the body
is unchanged, and the stream keeps its length. -/
theorem spec_C5 (md : MetadataImport) (target : MethodRef) (w : Nat)
    (body nb : List Instr) (m : Bool)
    (h : scanBody md target w body = some (nb, m)) :
    nb.length = body.length ∧
    List.Forall₂ (fun old new =>
      (stepOf md target old = StepResult.rewrite →
        new = { old with opcode := CEE_CALL, arg32 := w }) ∧
      (stepOf md target old ≠ StepResult.rewrite → new = old))
      body nb := by
  rw [scanBody_eq] at h
  by_cases hany : body.any (fun i => stepOf md target i == StepResult.hostFail) = true
  · rw [if_pos hany] at h
    exact absurd h (by simp)
  · rw [if_neg hany] at h
    have h' := Option.some.inj h
    injection h' with ha hb
    subst ha
    constructor
    · rw [List.length_map]
    · exact forall₂_rewriteInstr md target w body

/-- C5 witness: the Add replacement's pass over the example body commits a
stream whose only changes are the Add call site's opcode and operand. -/
theorem spec_C5_witness :
    scanBody mdEx mrAdd.target_method 41 bodyEx = some (bodyExAdd, true) ∧
    (bodyExAdd.length = bodyEx.length ∧
     List.Forall₂ (fun old new =>
       (stepOf mdEx mrAdd.target_method old = StepResult.rewrite →
         new = { old with opcode := CEE_CALL, arg32 := 41 }) ∧
       (stepOf mdEx mrAdd.target_method old ≠ StepResult.rewrite → new = old))
       bodyEx bodyExAdd) :=
  ⟨by decide, spec_C5 mdEx mrAdd.target_method 41 bodyEx bodyExAdd true (by decide)⟩

/-- C6: resolving a call instruction whose operand is a member reference
whose member name differs from the replacement's target method name returns
the negative result immediately after the single GetMemberRefProps read; no
type-reference or type-definition name resolution is attempted. -/
theorem spec_C6 (md : MetadataImport) (target : MethodRef) (instr : Instr)
    (parent : Nat) (name : String)
    (hop : instr.opcode = CEE_CALL ∨ instr.opcode = CEE_CALLVIRT)
    (htk : TypeFromToken instr.arg32 = mdtMemberRef)
    (hprops : md.memberRefProps instr.arg32 = some (parent, name))
    (hne : target.method_name ≠ name) :
    processInstr md target instr = (.keep, [.memberRefProps instr.arg32]) ∧
    ∀ c ∈ (processInstr md target instr).2, c.isTypeNameLookup = false := by
  have hcond : (instr.opcode = CEE_CALL ∨ instr.opcode = CEE_CALLVIRT) ∧
      (TypeFromToken instr.arg32 = mdtMemberRef ∨
       TypeFromToken instr.arg32 = mdtMethodDef) :=
    ⟨hop, Or.inl htk⟩
  have hres : processInstr md target instr = (.keep, [.memberRefProps instr.arg32]) := by
    unfold processInstr
    rw [if_pos hcond, if_pos htk, hprops]
    simp [hne]
  refine ⟨hres, ?_⟩
  rw [hres]
  intro c hc
  have hc' : c = HostCall.memberRefProps instr.arg32 := by simpa using hc
  rw [hc']
  rfl

/-- C6 witness: with the Add target, the Log call site's member name
mismatch is rejected after the one member-reference read. -/
theorem spec_C6_witness :
    processInstr mdEx targetAdd ⟨CEE_CALL, 0x0A000003, 2⟩ =
      (.keep, [.memberRefProps 0x0A000003]) ∧
    ∀ c ∈ (processInstr mdEx targetAdd ⟨CEE_CALL, 0x0A000003, 2⟩).2,
      c.isTypeNameLookup = false :=
  spec_C6 mdEx targetAdd ⟨CEE_CALL, 0x0A000003, 2⟩ 0x01000006 "Log"
    (Or.inl rfl) (by decide) (by decide) (by decide)

/-- C7: a single pass scans past its own mutations: the committed stream is
the pointwise rewrite of the whole body, so every call site of the
replacement's target is rewritten in the one pass, and the modified flag is
set exactly when at least one instruction stepped to a rewrite. -/
theorem spec_C7 (md : MetadataImport) (target : MethodRef) (w : Nat)
    (body nb : List Instr) (m : Bool)
    (h : scanBody md target w body = some (nb, m)) :
    nb = body.map (rewriteInstr md target w) ∧
    (m = true ↔ ∃ i ∈ body, stepOf md target i = StepResult.rewrite) := by
  rw [scanBody_eq] at h
  by_cases hany : body.any (fun i => stepOf md target i == StepResult.hostFail) = true
  · rw [if_pos hany] at h
    exact absurd h (by simp)
  · rw [if_neg hany] at h
    have h' := Option.some.inj h
    injection h' with ha hb
    subst ha
    subst hb
    constructor
    · rfl
    · constructor
      · intro hb
        obtain ⟨i, hi, hp⟩ := List.any_eq_true.mp hb
        exact ⟨i, hi, by simpa using hp⟩
      · rintro ⟨i, hi, hp⟩
        exact List.any_eq_true.mpr ⟨i, hi, by simpa using hp⟩

/-- C7 witness: one pass of the Add replacement over a body with three Add
call sites rewrites all three. -/
theorem spec_C7_witness :
    scanBody mdEx mrAdd.target_method 41 bodyTri = some (bodyTriRw, true) ∧
    (bodyTriRw = bodyTri.map (rewriteInstr mdEx mrAdd.target_method 41) ∧
     (true = true ↔ ∃ i ∈ bodyTri, stepOf mdEx mrAdd.target_method i = StepResult.rewrite)) :=
  ⟨by decide, spec_C7 mdEx mrAdd.target_method 41 bodyTri bodyTriRw true (by decide)⟩

/-- Bool form of the caller guard spelled as the propositional wildcard
condition on the type-name and method-name fields. -/
theorem callerMatches_eq_true_iff (mr : MethodReplacement) (caller : FunctionInfo) :
    callerMatches mr caller = true ↔
      ((mr.caller_method.type_name = "" ∨ mr.caller_method.type_name = caller.typeName) ∧
       (mr.caller_method.method_name = "" ∨ mr.caller_method.method_name = caller.methodName)) := by
  simp [callerMatches]

/-- Every replacement-loop result carries the success HRESULT. -/
theorem replLoop_hresult (ev : JitEvent) (record : ModuleRecord) (caller : FunctionInfo) :
    ∀ reps : List MethodReplacement, (replLoop ev record caller reps).hresult = S_OK := by
  intro reps
  induction reps with
  | nil => rfl
  | cons mr rest ih =>
    cases hc : callerMatches mr caller with
    | false => simpa [replLoop, hc] using ih
    | true =>
      cases hl : record.wrapper_refs.lookup mr.wrapper_method with
      | none => simp [replLoop, hc, hl]
      | some w =>
        cases himp : ev.importOk with
        | false => simp [replLoop, hc, hl, himp]
        | true =>
          cases hs : scanBody ev.md mr.target_method w ev.body with
          | none => simp [replLoop, hc, hl, himp, hs]
          | some p =>
            rcases p with ⟨nb, m⟩
            cases m with
            | false => simpa [replLoop, hc, hl, himp, hs] using ih
            | true => simp [replLoop, hc, hl, himp, hs]

/-- A replacement-loop run commits nothing, or commits exactly one stream,
namely the successful modified scan of some enabled replacement whose
caller guard held and whose wrapper reference was cached. -/
theorem replLoop_commits (ev : JitEvent) (record : ModuleRecord) (caller : FunctionInfo) :
    ∀ reps : List MethodReplacement,
      (replLoop ev record caller reps).commits = [] ∨
      ∃ nb mr w, (replLoop ev record caller reps).commits = [nb] ∧ mr ∈ reps ∧
        callerMatches mr caller = true ∧
        record.wrapper_refs.lookup mr.wrapper_method = some w ∧
        scanBody ev.md mr.target_method w ev.body = some (nb, true) := by
  intro reps
  induction reps with
  | nil => left; rfl
  | cons mr rest ih =>
    cases hc : callerMatches mr caller with
    | false =>
      rcases ih with h | ⟨nb, mr', w, h1, h2, h3, h4, h5⟩
      · left
        simpa [replLoop, hc] using h
      · right
        exact ⟨nb, mr', w, by simpa [replLoop, hc] using h1,
          List.mem_cons_of_mem _ h2, h3, h4, h5⟩
    | true =>
      cases hl : record.wrapper_refs.lookup mr.wrapper_method with
      | none => left; simp [replLoop, hc, hl]
      | some w =>
        cases himp : ev.importOk with
        | false => left; simp [replLoop, hc, hl, himp]
        | true =>
          cases hs : scanBody ev.md mr.target_method w ev.body with
          | none => left; simp [replLoop, hc, hl, himp, hs]
          | some p =>
            rcases p with ⟨nb, m⟩
            cases m with
            | false =>
              rcases ih with h | ⟨nb', mr', w', h1, h2, h3, h4, h5⟩
              · left
                simpa [replLoop, hc, hl, himp, hs] using h
              · right
                exact ⟨nb', mr', w', by simpa [replLoop, hc, hl, himp, hs] using h1,
                  List.mem_cons_of_mem _ h2, h3, h4, h5⟩
            | true =>
              right
              exact ⟨nb, mr, w, by simp [replLoop, hc, hl, himp, hs],
                List.mem_cons_self _ _, hc, hl, hs⟩

/-- A successful modified scan implies some instruction stepped to a rewrite. -/
theorem scan_modified_exists (md : MetadataImport) (target : MethodRef) (w : Nat)
    (body nb : List Instr) (h : scanBody md target w body = some (nb, true)) :
    ∃ i ∈ body, stepOf md target i = StepResult.rewrite := by
  rw [scanBody_eq] at h
  by_cases hany : body.any (fun i => stepOf md target i == StepResult.hostFail) = true
  · rw [if_pos hany] at h
    exact absurd h (by simp)
  · rw [if_neg hany] at h
    have h' := Option.some.inj h
    injection h' with ha hb
    obtain ⟨i, hi, hp⟩ := List.any_eq_true.mp hb
    exact ⟨i, hi, by simpa using hp⟩

/-- C1: replacements are iterated in catalog order; once one caller-matching
replacement's scan completes with at least one mutation, the mutated stream
is the single commit of the event and no further replacement is processed:
the loop's result is independent of everything after that replacement, its
attempted list stops at that replacement, and its one committed stream is
that replacement's scan result (so later replacements' call sites are left
as that scan left them, untouched by any further rule). -/
theorem spec_C1 (ev : JitEvent) (record : ModuleRecord) (caller : FunctionInfo)
    (skipped rest : List MethodReplacement) (R1 : MethodReplacement)
    (w : Nat) (nb : List Instr)
    (hskip : ∀ r ∈ skipped, callerMatches r caller = false)
    (hmatch : callerMatches R1 caller = true)
    (hlookup : record.wrapper_refs.lookup R1.wrapper_method = some w)
    (himp : ev.importOk = true)
    (hscan : scanBody ev.md R1.target_method w ev.body = some (nb, true)) :
    replLoop ev record caller (skipped ++ R1 :: rest) = ⟨S_OK, [nb], [R1]⟩ := by
  induction skipped with
  | nil =>
    simp [replLoop, hmatch, hlookup, himp, hscan]
  | cons r rs ih =>
    have hr : callerMatches r caller = false := hskip r (List.mem_cons_self r rs)
    have ih2 := ih (fun x hx => hskip x (List.mem_cons_of_mem r hx))
    simpa [replLoop, hr] using ih2

/-- C1 witness: with both example replacements matching the caller and both
having call sites in the body, the event commits only the Add replacement's
rewrite and never processes the Log replacement. -/
theorem spec_C1_witness :
    callerMatches mrAdd callerEx = true ∧
    recEx.wrapper_refs.lookup mrAdd.wrapper_method = some 41 ∧
    scanBody mdEx mrAdd.target_method 41 bodyEx = some (bodyExAdd, true) ∧
    replLoop evEx recEx callerEx [mrAdd, mrLog] = ⟨S_OK, [bodyExAdd], [mrAdd]⟩ :=
  ⟨by decide, by decide, by decide,
   spec_C1 evEx recEx callerEx [] [mrLog] mrAdd 41 bodyExAdd
     (by simp) (by decide) (by decide) rfl (by decide)⟩

/-- C4 counterexample: with the wrapper reference of the first
caller-matching replacement missing from the cache, the whole compilation
event ends: the result attempts only that replacement and commits nothing,
although the next replacement also matches the caller, has a cached wrapper
reference, and its scan would have mutated the body.  This refutes the
claim that only the affected replacement is skipped and the remaining ones
are still evaluated. -/
theorem spec_C4_cex :
    jitCompilationStarted evC4 = ⟨S_OK, [], [mrAdd]⟩ ∧
    callerMatches mrLog callerEx = true ∧
    recC4.wrapper_refs.lookup mrLog.wrapper_method = some 42 ∧
    scanBody mdEx mrLog.target_method 42 bodyEx = some (bodyExLog, true) := by
  refine ⟨by decide, by decide, by decide, by decide⟩

/-- C4 amended: at rewrite time, a missing cached wrapper reference for a
caller-matching replacement aborts the entire compilation event with the
success HRESULT: no stream is committed and no further replacement of the
event is evaluated. -/
theorem spec_C4_amended (ev : JitEvent) (record : ModuleRecord) (caller : FunctionInfo)
    (mr : MethodReplacement) (rest : List MethodReplacement)
    (hmatch : callerMatches mr caller = true)
    (hmiss : record.wrapper_refs.lookup mr.wrapper_method = none) :
    replLoop ev record caller (mr :: rest) = ⟨S_OK, [], [mr]⟩ := by
  simp [replLoop, hmatch, hmiss]

/-- C4 amended witness: the concrete missing-reference event stops at the
Add replacement. -/
theorem spec_C4_amended_witness :
    replLoop evC4 recC4 callerEx [mrAdd, mrLog] = ⟨S_OK, [], [mrAdd]⟩ :=
  spec_C4_amended evC4 recC4 callerEx mrAdd [mrLog] (by decide) (by decide)

/-- C8 counterexample: after a real module load of a catalog whose one
integration holds an assembly-A replacement and an assembly-B replacement,
loading into assembly A enables both; at compilation time the assembly-B
replacement's rewrite pass is attempted and even commits, although its
caller assembly name is non-empty and differs from the module's assembly
name.  This refutes the claim that the caller assembly field takes part in
the match that gates a rewrite pass. -/
theorem spec_C8_cex :
    moduleLoadFinished catalogC8 oracleC8 "A" false true true = some recC8 ∧
    jitCompilationStarted evC8 = ⟨S_OK, [bodyC8], [r8b]⟩ ∧
    r8b.caller_method.assembly_name ≠ "" ∧
    r8b.caller_method.assembly_name ≠ recC8.assembly_name := by
  refine ⟨by decide, by decide, by decide, by decide⟩

/-- C8 amended: a rewrite pass is attempted for an enabled replacement at
the head of the loop exactly when its caller declaring-type and method-name
fields match the compiling method's identity (an empty field is a wildcard,
a non-empty field must be equal); the caller assembly-name field is not
consulted at compilation time, and a non-matching replacement is skipped
with the loop otherwise unchanged. -/
theorem spec_C8_amended (ev : JitEvent) (record : ModuleRecord) (caller : FunctionInfo)
    (mr : MethodReplacement) (rest : List MethodReplacement) :
    (((mr.caller_method.type_name = "" ∨ mr.caller_method.type_name = caller.typeName) ∧
      (mr.caller_method.method_name = "" ∨ mr.caller_method.method_name = caller.methodName)) →
      (replLoop ev record caller (mr :: rest)).attempted.head? = some mr) ∧
    (¬((mr.caller_method.type_name = "" ∨ mr.caller_method.type_name = caller.typeName) ∧
       (mr.caller_method.method_name = "" ∨ mr.caller_method.method_name = caller.methodName)) →
      replLoop ev record caller (mr :: rest) = replLoop ev record caller rest) := by
  constructor
  · intro hg
    have hc : callerMatches mr caller = true := (callerMatches_eq_true_iff mr caller).mpr hg
    cases hl : record.wrapper_refs.lookup mr.wrapper_method with
    | none => simp [replLoop, hc, hl]
    | some w =>
      cases himp : ev.importOk with
      | false => simp [replLoop, hc, hl, himp]
      | true =>
        cases hs : scanBody ev.md mr.target_method w ev.body with
        | none => simp [replLoop, hc, hl, himp, hs]
        | some p =>
          rcases p with ⟨nb, m⟩
          cases m with
          | false => simp [replLoop, hc, hl, himp, hs]
          | true => simp [replLoop, hc, hl, himp, hs]
  · intro hg
    cases hc : callerMatches mr caller with
    | false => simp [replLoop, hc]
    | true => exact absurd ((callerMatches_eq_true_iff mr caller).mp hc) hg

/-- C8 amended witness: the all-wildcard-on-type-and-method replacement r8b
is attempted at the head of the loop; the method-name-mismatched r8a is
skipped. -/
theorem spec_C8_amended_witness :
    (replLoop evC8 recC8 callerEx [r8b]).attempted.head? = some r8b ∧
    replLoop evC8 recC8 callerEx [r8a] = replLoop evC8 recC8 callerEx [] :=
  ⟨(spec_C8_amended evC8 recC8 callerEx r8b []).1 (by decide),
   (spec_C8_amended evC8 recC8 callerEx r8a []).2 (by decide)⟩

/-- C9: every compilation event commits at most one stream, and a commit
happens only when some enabled replacement of the tracked module passed the
caller guard, had its wrapper reference cached, and its scan ran to
completion over the whole body with at least one instruction stepping to a
rewrite; in particular an event whose scan is cut short by a failed host
metadata read never commits, because an aborted scan yields no completed
result. -/
theorem spec_C9 (ev : JitEvent) :
    (jitCompilationStarted ev).commits = [] ∨
    ∃ nb mr w record, ev.record = some record ∧
      (jitCompilationStarted ev).commits = [nb] ∧
      mr ∈ enabledReplacements record ∧
      record.wrapper_refs.lookup mr.wrapper_method = some w ∧
      scanBody ev.md mr.target_method w ev.body = some (nb, true) ∧
      ∃ i ∈ ev.body, stepOf ev.md mr.target_method i = StepResult.rewrite := by
  unfold jitCompilationStarted
  cases hf : ev.functionInfoOk with
  | false => left; simp
  | true =>
    cases hr : ev.record with
    | none => left; simp
    | some record =>
      cases hcaller : ev.caller with
      | none => left; simp
      | some caller =>
        rcases replLoop_commits ev record caller (enabledReplacements record) with
          h | ⟨nb, mr, w, h1, h2, h3, h4, h5⟩
        · left; simpa using h
        · right
          exact ⟨nb, mr, w, record, rfl, by simpa using h1, h2, h4, h5,
            scan_modified_exists ev.md mr.target_method w ev.body nb h5⟩

/-- C10: the compilation-start handler returns the success HRESULT on every
input: untracked module, unresolvable caller, missing wrapper reference,
failed metadata read mid-scan, or a committed rewrite. -/
theorem spec_C10 (ev : JitEvent) : (jitCompilationStarted ev).hresult = S_OK := by
  unfold jitCompilationStarted
  cases hf : ev.functionInfoOk with
  | false => simp
  | true =>
    cases hr : ev.record with
    | none => simp
    | some record =>
      cases hcaller : ev.caller with
      | none => simp
      | some caller =>
        simpa using replLoop_hresult ev record caller (enabledReplacements record)

/-- Unrolling of the inner filter loop: folding one integration's
replacement list pushes one copy of the integration per assembly-matching
replacement onto the accumulator. -/
theorem inner_push (an : String) (integration : Integration) :
    ∀ (l : List MethodReplacement) (acc : List Integration),
      l.foldl (fun enabled mr =>
        if assemblyMatches mr an then enabled ++ [integration] else enabled) acc
      = acc ++ (l.filter (fun mr => assemblyMatches mr an)).map (fun _ => integration) := by
  intro l
  induction l with
  | nil => intro acc; simp
  | cons mr rest ih =>
    intro acc
    cases hm : assemblyMatches mr an with
    | false => simp [List.foldl_cons, hm, ih, List.filter_cons]
    | true => simp [List.foldl_cons, hm, ih, List.filter_cons]

/-- The module-load filter produces, for each catalog integration, one copy
of that integration per replacement whose caller assembly name is empty or
equals the module's assembly name. -/
theorem enabledIntegrationsFor_eq (catalog : List Integration) (an : String) :
    enabledIntegrationsFor catalog an
      = catalog.flatMap (fun integration =>
          (integration.method_replacements.filter (fun mr => assemblyMatches mr an)).map
            (fun _ => integration)) := by
  suffices h : ∀ (cat : List Integration) (acc : List Integration),
      cat.foldl (fun enabled integration =>
        integration.method_replacements.foldl (fun enabled mr =>
          if assemblyMatches mr an then enabled ++ [integration] else enabled) enabled) acc
      = acc ++ cat.flatMap (fun integration =>
          (integration.method_replacements.filter (fun mr => assemblyMatches mr an)).map
            (fun _ => integration)) by
    simpa [enabledIntegrationsFor] using h catalog []
  intro cat
  induction cat with
  | nil => intro acc; simp
  | cons i rest ih =>
    intro acc
    simp only [List.foldl_cons]
    rw [inner_push an i i.method_replacements acc, ih, List.flatMap_cons, List.append_assoc]

/-- The emission loop fails as a whole as soon as any replacement of the
list fails either emission step. -/
theorem emitAll_eq_none (oracle : EmitOracle) :
    ∀ (l : List MethodReplacement) (mr : MethodReplacement), mr ∈ l →
      (oracle.emitAssemblyRef mr.wrapper_method.assembly_name = false ∨
       oracle.storeWrapperRef mr = none) →
      emitAll oracle l = none := by
  intro l
  induction l with
  | nil => intro mr h; cases h
  | cons a rest ih =>
    intro mr hmem hfail
    rcases List.mem_cons.mp hmem with rfl | hmem'
    · cases hE : oracle.emitAssemblyRef mr.wrapper_method.assembly_name with
      | false => simp [emitAll, hE]
      | true =>
        rcases hfail with hf | hf
        · rw [hE] at hf
          cases hf
        · simp [emitAll, hE, hf]
    · cases hE : oracle.emitAssemblyRef a.wrapper_method.assembly_name with
      | false => simp [emitAll, hE]
      | true =>
        cases hS : oracle.storeWrapperRef a with
        | none => simp [emitAll, hE, hS]
        | some handle => simp [emitAll, hE, hS, ih mr hmem' hfail]

/-- C2 counterexample.  First input: a catalog whose one integration holds
an assembly-A and an assembly-B replacement, loaded into assembly A — the
stored record enables the assembly-B replacement although its caller
assembly is non-empty and differs from A.  Second input: one integration
with two assembly-A replacements — the stored record's enabled list holds
each replacement twice.  Both refute the claim that the enabled set is
exactly the assembly-matching subset with no duplicates. -/
theorem spec_C2_cex :
    (moduleLoadFinished catalogC2 oracleC2 "A" false true true = some recC2 ∧
     rAsmB ∈ enabledReplacements recC2 ∧
     rAsmB.caller_method.assembly_name ≠ "" ∧
     rAsmB.caller_method.assembly_name ≠ "A") ∧
    (moduleLoadFinished catalogC2b oracleC2 "A" false true true = some recC2b ∧
     (enabledReplacements recC2b).count rAsmA = 2) := by
  refine ⟨⟨by decide, by decide, by decide, by decide⟩, ⟨by decide, by decide⟩⟩

/-- C2 amended: the integration list a stored module record carries is the
catalog flattened so that each integration occurs once per replacement of
its own whose caller assembly name is empty or equals the module's assembly
name; the record's enabled replacements are the full replacement lists of
those occurrences, so an included integration's other replacements are
enabled regardless of their caller assembly, and an integration with
several matching replacements contributes its replacements several times. -/
theorem spec_C2_amended (catalog : List Integration) (oracle : EmitOracle)
    (an : String) (is_winrt infoOk metadataOk : Bool) (rec : ModuleRecord)
    (h : moduleLoadFinished catalog oracle an is_winrt infoOk metadataOk = some rec) :
    rec.integrations = catalog.flatMap (fun integration =>
      (integration.method_replacements.filter (fun mr => assemblyMatches mr an)).map
        (fun _ => integration)) := by
  unfold moduleLoadFinished at h
  cases infoOk with
  | false => simp at h
  | true =>
    cases is_winrt with
    | true => simp at h
    | false =>
      by_cases hE : (enabledIntegrationsFor catalog an).isEmpty
      · rw [if_pos rfl, if_neg (by simp), if_pos hE] at h
        cases h
      · cases metadataOk with
        | false =>
          rw [if_pos rfl, if_neg (by simp), if_neg hE] at h
          simp at h
        | true =>
          rw [if_pos rfl, if_neg (by simp), if_neg hE, if_pos rfl] at h
          cases hEmit : emitAll oracle
              ((enabledIntegrationsFor catalog an).flatMap
                (fun integration => integration.method_replacements)) with
          | none =>
            rw [hEmit] at h
            cases h
          | some cache =>
            rw [hEmit] at h
            have h2 := Option.some.inj h
            rw [← h2]
            exact enabledIntegrationsFor_eq catalog an

/-- C2 amended witness: the concrete stored record for catalogC2 satisfies
the flattened-occurrence characterization. -/
theorem spec_C2_amended_witness :
    recC2.integrations = catalogC2.flatMap (fun integration =>
      (integration.method_replacements.filter (fun mr => assemblyMatches mr "A")).map
        (fun _ => integration)) :=
  spec_C2_amended catalogC2 oracleC2 "A" false true true recC2 (by decide)

/-- C3 counterexample: with both replacements of the catalog matching
assembly A and the emission oracle failing only on the first replacement's
wrapper, module load stores no record at all, although the second
replacement's emission would succeed.  This refutes the claim that an
emission failure only drops the one replacement while the rest are emitted
and the record is still inserted. -/
theorem spec_C3_cex :
    moduleLoadFinished catalogC2b oracleC3 "A" false true true = none ∧
    oracleC3.storeWrapperRef rAsmA2 = some 7 ∧
    oracleC3.emitAssemblyRef rAsmA2.wrapper_method.assembly_name = true ∧
    assemblyMatches rAsmA2 "A" = true := by
  refine ⟨by decide, by decide, by decide, by decide⟩

/-- C3 amended: a failure to emit any enabled replacement's wrapper
reference aborts the whole module load: no module record is inserted into
the registry, so every replacement (the others included) is disabled for
that module and later compilation events for it are no-ops. -/
theorem spec_C3_amended (catalog : List Integration) (oracle : EmitOracle)
    (an : String) (is_winrt infoOk metadataOk : Bool) (mr : MethodReplacement)
    (hmem : mr ∈ (enabledIntegrationsFor catalog an).flatMap
      (fun integration => integration.method_replacements))
    (hfail : oracle.emitAssemblyRef mr.wrapper_method.assembly_name = false ∨
      oracle.storeWrapperRef mr = none) :
    moduleLoadFinished catalog oracle an is_winrt infoOk metadataOk = none := by
  unfold moduleLoadFinished
  cases infoOk with
  | false => simp
  | true =>
    cases is_winrt with
    | true => simp
    | false =>
      by_cases hE : (enabledIntegrationsFor catalog an).isEmpty
      · simp [hE]
      · cases metadataOk with
        | false => simp [hE]
        | true =>
          have hnone := emitAll_eq_none oracle _ mr hmem hfail
          simp [hE, hnone]

/-- C3 amended witness: the concrete one-failing-wrapper load stores no
record. -/
theorem spec_C3_amended_witness :
    moduleLoadFinished catalogC2b oracleC3 "A" false true true = none :=
  spec_C3_amended catalogC2b oracleC3 "A" false true true rAsmA (by decide)
    (Or.inr (by decide))
